import Mathlib

/-!
# Verification of `vexide-panic`'s backtrace module

Shallow embedding of `packages/vexide-panic/src/backtrace.rs`.

The module captures a stack backtrace by driving an external unwind
cursor (the `crate::unwind` collaborator, out of scope of the core and
not present in the sources).  We model the collaborator's observable
behaviour as an `UnwindWorld`: the outcome of context creation, the
outcome of cursor creation, the frame the freshly created cursor points
at, and the finite list of frames the cursor yields on successive
successful `step` calls (after which `step` returns `false`; the call
stack is finite).

Machine words are ARM 32-bit: addresses are `Nat` and the unchecked
`instruction_pointer -= 1` is modelled as wrap-around subtraction
modulo `2 ^ 32`.
-/

/-- ARM (armv7a) word width in bits. -/
def wordBits : Nat := 32

/-- Number of machine words: `2 ^ 32`. -/
def wordSize : Nat := 2 ^ wordBits

/-- Opaque error type of the external unwinder (`UnwindError`).  The core
never inspects it, so we model it as a wrapped code. -/
structure UnwindError where
  code : Nat
deriving DecidableEq, Repr

deriving instance DecidableEq for Except

/-- One stack frame as observable through the cursor interface: the result
of reading the instruction-pointer register (`cursor.get_register(UNW_REG_IP)`,
which may fail), and whether `cursor.is_signal_frame()` holds there. -/
structure StackFrame where
  ip_result : Except UnwindError Nat
  signal : Bool
deriving DecidableEq, Repr

/-- `cursor.get_register(sys::UNW_REG_IP)` on a given frame. -/
def get_register (f : StackFrame) : Except UnwindError Nat := f.ip_result

/-- `cursor.is_signal_frame()` on a given frame. -/
def is_signal_frame (f : StackFrame) : Bool := f.signal

/-- Behaviour of the external unwinding machinery for one capture:
outcomes of `UnwindContext::new()` and `UnwindCursor::new(&mut context)`,
the frame the fresh cursor points at before any `step`, and the frames
yielded by each successive successful `step` (then `step` returns false). -/
structure UnwindWorld where
  context_error : Option UnwindError
  cursor_error : Option UnwindError
  initial_frame : StackFrame
  step_frames : List StackFrame
deriving DecidableEq, Repr

/-- State of an unwind cursor: the frame it currently points at and the
frames still to be yielded by future `step`s. -/
structure UnwindCursor where
  current : StackFrame
  pending : List StackFrame
deriving DecidableEq, Repr

/-- `cursor.step()`: advance to the next (caller) frame.  `none` models the
`false` return (stack exhausted); `some c` models `true` with `c` the
advanced cursor. -/
def UnwindCursor.step : UnwindCursor → Option UnwindCursor
  | ⟨_, []⟩ => none
  | ⟨_, f :: rest⟩ => some ⟨f, rest⟩

/-- `UnwindContext::new()`. -/
def UnwindContext.new (w : UnwindWorld) : Except UnwindError Unit :=
  match w.context_error with
  | some e => Except.error e
  | none => Except.ok ()

/-- `UnwindCursor::new(&mut context)`: a fresh cursor points at
`w.initial_frame` (the activation frame of `try_capture` itself) and will
yield `w.step_frames` on successive steps. -/
def UnwindCursor.new (w : UnwindWorld) : Except UnwindError UnwindCursor :=
  match w.cursor_error with
  | some e => Except.error e
  | none => Except.ok ⟨w.initial_frame, w.step_frames⟩

/-- Wrap-around decrement of a machine word: the value of the unchecked
subtraction `instruction_pointer -= 1` modulo `2 ^ 32`. -/
def wrapSub1 (ip : Nat) : Nat := (ip + (wordSize - 1)) % wordSize

/-- The IP adjustment of the loop body: `instruction_pointer -= 1` executed
only when `!cursor.is_signal_frame()`. -/
def adjustIP (ip : Nat) (isSignal : Bool) : Nat :=
  match isSignal with
  | false => wrapSub1 ip
  | true => ip

/-- The `while cursor.step() { ... }` loop of `try_capture`, parametrised by
the cursor's current frame and the frames still pending, accumulating the
pushed addresses in `frames`.  Each iteration steps first, then reads the
IP register (propagating a read error via `?`), conditionally adjusts it,
and pushes it. -/
def captureLoopAux : StackFrame → List StackFrame → List Nat →
    Except UnwindError (List Nat)
  | _, [], frames => Except.ok frames
  | _, f :: rest, frames =>
    match get_register f with
    | Except.error e => Except.error e
    | Except.ok ip =>
      captureLoopAux f rest (frames ++ [adjustIP ip (is_signal_frame f)])

/-- The capture loop, started from a cursor state. -/
def captureLoop (c : UnwindCursor) (frames : List Nat) :
    Except UnwindError (List Nat) :=
  captureLoopAux c.current c.pending frames

/-- A captured stack backtrace: the instruction pointers of each frame. -/
structure Backtrace where
  frames : List Nat
deriving DecidableEq, Repr

/-- `Backtrace::try_capture()`: create a context, bind a cursor to it, run
the capture loop from an empty vector, and return the accumulated frames;
any failure is propagated verbatim via `?`. -/
def try_capture (w : UnwindWorld) : Except UnwindError Backtrace :=
  match UnwindContext.new w with
  | Except.error e => Except.error e
  | Except.ok _ =>
    match UnwindCursor.new w with
    | Except.error e => Except.error e
    | Except.ok cursor =>
      match captureLoop cursor [] with
      | Except.error e => Except.error e
      | Except.ok frames => Except.ok { frames := frames }

/-- `Backtrace::capture()` on the ARM target:
`Self::try_capture().unwrap_or(Self { frames: Vec::new() })`. -/
def capture (w : UnwindWorld) : Backtrace :=
  match try_capture w with
  | Except.ok bt => bt
  | Except.error _ => { frames := [] }

/-- The compile-time target selection of `capture`'s body. -/
inductive TargetArch where
  | arm
  | wasm32
deriving DecidableEq, Repr

/-- `Backtrace::capture()` with the `cfg(target_arch)` selection explicit:
on `arm` it runs the unwind algorithm, on `wasm32` it returns
`Self { frames: Vec::new() }` unconditionally. -/
def captureOn : TargetArch → UnwindWorld → Backtrace
  | TargetArch.arm, w => capture w
  | TargetArch.wasm32, _ => { frames := [] }

/-!
## The renderer (`Display for Backtrace`)

`fmt` writes a header line, then for each `(i, frame)` of
`self.frames.iter().enumerate()` one line `"{i:>3}: {:?}"`, then a final
note with no line terminator.  Rust renders the index in decimal,
right-aligned to a minimum width of 3 with spaces, and the raw pointer as
`0x` followed by the address in lowercase hexadecimal.
-/

/-- Lowercase hexadecimal digits of `n`, most significant first.  The
`fuel` argument (any value `≥` the digit count, in practice `n` itself)
makes the recursion structural. -/
def natToHexAux : Nat → Nat → List Char → List Char
  | 0, _, acc => acc
  | fuel + 1, n, acc =>
    if n = 0 then acc
    else natToHexAux fuel (n / 16) (Nat.digitChar (n % 16) :: acc)

/-- Rust `Debug`/`Pointer` formatting of a raw pointer value: `0x` followed
by the address in lowercase hexadecimal. -/
def formatPointer (a : Nat) : String :=
  "0x" ++ (if a = 0 then "0" else String.mk (natToHexAux a a []))

/-- Decimal digits of `n`, most significant first, with structural fuel. -/
def natToDecAux : Nat → Nat → List Char → List Char
  | 0, _, acc => acc
  | fuel + 1, n, acc =>
    if n = 0 then acc
    else natToDecAux fuel (n / 10) (Nat.digitChar (n % 10) :: acc)

/-- Rust `Display` formatting of the decimal loop index. -/
def natToDec (n : Nat) : String :=
  if n = 0 then "0" else String.mk (natToDecAux n n [])

/-- Right-alignment to a minimum field width with spaces (Rust `{i:>3}`). -/
def padLeft (s : String) (width : Nat) : String :=
  String.mk (List.replicate (width - s.length) ' ') ++ s

/-- The body (no terminator) of one frame line: `{i:>3}: {:?}`. -/
def frameLineBody (i a : Nat) : String :=
  padLeft (natToDec i) 3 ++ ": " ++ formatPointer a

/-- One `writeln!` of the frame loop: the body plus its line terminator. -/
def frameLine (i a : Nat) : String := frameLineBody i a ++ "\n"

/-- The `for (i, frame) in self.frames.iter().enumerate()` loop of `fmt`,
writing one line per frame starting at index `i`. -/
def renderFrames : Nat → List Nat → String
  | _, [] => ""
  | i, a :: rest => frameLine i a ++ renderFrames (i + 1) rest

/-- The trailing advisory note (final `write!`, no line terminator). -/
def noteText : String :=
  "note: Use a symbolizer to convert stack frames to human-readable function names."

/-- `Display for Backtrace`: header line, one line per frame in stored
order, trailing note. -/
def render (bt : Backtrace) : String :=
  "stack backtrace:\n" ++ renderFrames 0 bt.frames ++ noteText

/-- Split a character sequence at newline characters; used to state the
line structure of rendered output.  A string with `k` newlines splits into
exactly `k + 1` lines, so a terminator-free tail is visible as a final
line. -/
def splitLines : List Char → List (List Char)
  | [] => [[]]
  | c :: rest =>
    if c = '\n' then [] :: splitLines rest
    else
      match splitLines rest with
      | [] => [[c]]
      | l :: ls => (c :: l) :: ls

/-!
## Characterisation of the capture loop
-/

/-- The effect of one loop iteration on the frame it stepped to: the read
instruction pointer, adjusted unless the frame is a signal frame. -/
def recordFrame (f : StackFrame) : Except UnwindError Nat :=
  match get_register f with
  | Except.error e => Except.error e
  | Except.ok ip => Except.ok (adjustIP ip (is_signal_frame f))

/-- Specification form of the capture loop: record each stepped-to frame in
order, failing fast at the first read error. -/
def recordFrames : List StackFrame → Except UnwindError (List Nat)
  | [] => Except.ok []
  | f :: rest =>
    match recordFrame f with
    | Except.error e => Except.error e
    | Except.ok a =>
      match recordFrames rest with
      | Except.error e => Except.error e
      | Except.ok as => Except.ok (a :: as)

/-- The sequence of frame-line bodies written by the renderer loop,
starting at index `i`. -/
def frameBodies : Nat → List Nat → List (List Char)
  | _, [] => []
  | i, a :: rest => (frameLineBody i a).data :: frameBodies (i + 1) rest

/-!
## Concrete unwinder behaviours used by witnesses and counterexamples
-/

/-- A frame whose register read succeeds with instruction pointer `ip`. -/
def okFrame (ip : Nat) (sig : Bool) : StackFrame := ⟨Except.ok ip, sig⟩

/-- A frame whose register read fails with error `e`. -/
def badFrame (e : UnwindError) : StackFrame := ⟨Except.error e, false⟩

/-- A well-behaved capture: two frames, the first a normal call frame at
`0x1001`, the second a signal frame at `0x2000`. -/
def demoWorld : UnwindWorld :=
  ⟨none, none, okFrame 99 false, [okFrame 0x1001 false, okFrame 0x2000 true]⟩

/-- A capture whose context creation fails. -/
def errWorld : UnwindWorld := ⟨some ⟨3⟩, none, okFrame 99 false, []⟩

/-- A capture that steps to a single non-signal frame whose raw
instruction pointer is `0`. -/
def zeroIPWorld : UnwindWorld := ⟨none, none, okFrame 99 false, [okFrame 0 false]⟩

/-- A capture where the register read of the second stepped-to frame
fails, after one frame was already collected. -/
def readFailWorld : UnwindWorld :=
  ⟨none, none, okFrame 99 false,
    [okFrame 0x1001 false, badFrame ⟨7⟩, okFrame 0x2000 true]⟩

lemma captureLoopAux_eq (cur : StackFrame) (fs : List StackFrame)
    (acc : List Nat) :
    captureLoopAux cur fs acc =
      match recordFrames fs with
      | Except.error e => Except.error e
      | Except.ok as => Except.ok (acc ++ as) := by
  induction fs generalizing cur acc with
  | nil => simp [captureLoopAux, recordFrames]
  | cons f rest ih =>
    simp only [captureLoopAux, recordFrames, recordFrame]
    cases hr : get_register f with
    | error e => rfl
    | ok ip =>
      dsimp only
      rw [ih]
      cases recordFrames rest with
      | error e => rfl
      | ok as => simp

/-- `try_capture` in terms of the specification form of the loop. -/
lemma try_capture_eq (w : UnwindWorld) :
    try_capture w =
      match w.context_error with
      | some e => Except.error e
      | none =>
        match w.cursor_error with
        | some e => Except.error e
        | none =>
          match recordFrames w.step_frames with
          | Except.error e => Except.error e
          | Except.ok as => Except.ok { frames := as } := by
  unfold try_capture UnwindContext.new UnwindCursor.new captureLoop
  cases w.context_error with
  | some e => rfl
  | none =>
    cases w.cursor_error with
    | some e => rfl
    | none =>
      simp only [captureLoopAux_eq]
      cases recordFrames w.step_frames with
      | error e => rfl
      | ok as => simp

lemma recordFrames_length {fs : List StackFrame} {as : List Nat}
    (h : recordFrames fs = Except.ok as) : as.length = fs.length := by
  induction fs generalizing as with
  | nil =>
    simp only [recordFrames, Except.ok.injEq] at h
    subst h
    rfl
  | cons f rest ih =>
    simp only [recordFrames] at h
    cases hr : recordFrame f with
    | error e => rw [hr] at h; cases h
    | ok a =>
      rw [hr] at h
      cases hrest : recordFrames rest with
      | error e => rw [hrest] at h; cases h
      | ok as2 =>
        rw [hrest] at h
        simp only [Except.ok.injEq] at h
        subst h
        simp [ih hrest]

lemma recordFrames_index {fs : List StackFrame} {as : List Nat}
    (h : recordFrames fs = Except.ok as) :
    ∀ (i : Nat) (f : StackFrame), fs[i]? = some f →
      ∃ a, recordFrame f = Except.ok a ∧ as[i]? = some a := by
  induction fs generalizing as with
  | nil => intro i f hf; simp at hf
  | cons g rest ih =>
    intro i f hf
    simp only [recordFrames] at h
    cases hr : recordFrame g with
    | error e => rw [hr] at h; cases h
    | ok a =>
      rw [hr] at h
      cases hrest : recordFrames rest with
      | error e => rw [hrest] at h; cases h
      | ok as2 =>
        rw [hrest] at h
        simp only [Except.ok.injEq] at h
        subst h
        cases i with
        | zero =>
          simp only [List.getElem?_cons_zero, Option.some.injEq] at hf
          subst hf
          exact ⟨a, hr, by simp⟩
        | succ j =>
          simp only [List.getElem?_cons_succ] at hf
          obtain ⟨b, hb1, hb2⟩ := ih hrest j f hf
          exact ⟨b, hb1, by simpa using hb2⟩

lemma recordFrames_ok_of_forall {fs : List StackFrame}
    (h : ∀ f ∈ fs, ∃ ip, get_register f = Except.ok ip) :
    ∃ as, recordFrames fs = Except.ok as := by
  induction fs with
  | nil => exact ⟨[], rfl⟩
  | cons f rest ih =>
    obtain ⟨ip, hip⟩ := h f (by simp)
    obtain ⟨as, has⟩ := ih (fun g hg => h g (by simp [hg]))
    refine ⟨adjustIP ip (is_signal_frame f) :: as, ?_⟩
    simp only [recordFrames, recordFrame, hip, has]

lemma recordFrames_append_error {pre post : List StackFrame}
    {f : StackFrame} {e : UnwindError}
    (hpre : ∀ g ∈ pre, ∃ ip, get_register g = Except.ok ip)
    (hf : get_register f = Except.error e) :
    recordFrames (pre ++ f :: post) = Except.error e := by
  induction pre with
  | nil => simp only [List.nil_append, recordFrames, recordFrame, hf]
  | cons g rest ih =>
    obtain ⟨ip, hip⟩ := hpre g (by simp)
    have hrest := ih (fun g2 hg2 => hpre g2 (by simp [hg2]))
    simp only [List.cons_append, recordFrames, recordFrame, hip, List.append_eq, hrest]

lemma adjustIP_false (ip : Nat) : adjustIP ip false = wrapSub1 ip := rfl

lemma adjustIP_true (ip : Nat) : adjustIP ip true = ip := rfl

lemma wrapSub1_eq_sub_one {ip : Nat} (h1 : 1 ≤ ip) (h2 : ip < wordSize) :
    wrapSub1 ip = ip - 1 := by
  unfold wrapSub1
  have hw : 0 < wordSize := by unfold wordSize; positivity
  have hsplit : ip + (wordSize - 1) = (ip - 1) + wordSize := by omega
  rw [hsplit, Nat.add_mod_right, Nat.mod_eq_of_lt (by omega)]

/-!
## Line structure of the rendered output
-/

lemma splitLines_of_no_newline {cs : List Char} (h : ∀ c ∈ cs, c ≠ '\n') :
    splitLines cs = [cs] := by
  induction cs with
  | nil => rfl
  | cons c rest ih =>
    have hc : c ≠ '\n' := h c (by simp)
    have hrest := ih (fun d hd => h d (by simp [hd]))
    simp only [splitLines, if_neg hc, hrest]

lemma splitLines_append_newline {xs ys : List Char}
    (h : ∀ c ∈ xs, c ≠ '\n') :
    splitLines (xs ++ '\n' :: ys) = xs :: splitLines ys := by
  induction xs with
  | nil => simp [splitLines]
  | cons c rest ih =>
    have hc : c ≠ '\n' := h c (by simp)
    have hrest := ih (fun d hd => h d (by simp [hd]))
    simp only [List.cons_append, splitLines, if_neg hc, List.append_eq, hrest]

set_option maxHeartbeats 1000000 in
lemma digitChar_ne_newline (d : Nat) : Nat.digitChar d ≠ '\n' := by
  rcases Nat.lt_or_ge d 16 with h | h
  · interval_cases d <;> decide
  · unfold Nat.digitChar
    iterate 16 rw [if_neg (by omega)]
    decide

lemma natToHexAux_mem (fuel : Nat) :
    ∀ (n : Nat) (acc : List Char), ∀ c ∈ natToHexAux fuel n acc,
      c ∈ acc ∨ ∃ d, c = Nat.digitChar d := by
  induction fuel with
  | zero => intro n acc c hc; exact Or.inl hc
  | succ fuel ih =>
    intro n acc c hc
    simp only [natToHexAux] at hc
    split at hc
    · exact Or.inl hc
    · rcases ih (n / 16) (Nat.digitChar (n % 16) :: acc) c hc with h | h
      · rcases List.mem_cons.mp h with h | h
        · exact Or.inr ⟨n % 16, h⟩
        · exact Or.inl h
      · exact Or.inr h

lemma natToDecAux_mem (fuel : Nat) :
    ∀ (n : Nat) (acc : List Char), ∀ c ∈ natToDecAux fuel n acc,
      c ∈ acc ∨ ∃ d, c = Nat.digitChar d := by
  induction fuel with
  | zero => intro n acc c hc; exact Or.inl hc
  | succ fuel ih =>
    intro n acc c hc
    simp only [natToDecAux] at hc
    split at hc
    · exact Or.inl hc
    · rcases ih (n / 10) (Nat.digitChar (n % 10) :: acc) c hc with h | h
      · rcases List.mem_cons.mp h with h | h
        · exact Or.inr ⟨n % 10, h⟩
        · exact Or.inl h
      · exact Or.inr h

lemma natToDec_no_newline (i : Nat) : ∀ c ∈ (natToDec i).data, c ≠ '\n' := by
  intro c hc
  unfold natToDec at hc
  split at hc
  · rw [show ("0" : String).data = ['0'] from rfl] at hc
    simp only [List.mem_singleton] at hc
    subst hc; decide
  · rw [show (String.mk (natToDecAux i i [])).data = natToDecAux i i [] from rfl] at hc
    rcases natToDecAux_mem i i [] c hc with h | ⟨d, hd⟩
    · simp at h
    · subst hd; exact digitChar_ne_newline d

lemma formatPointer_no_newline (a : Nat) :
    ∀ c ∈ (formatPointer a).data, c ≠ '\n' := by
  intro c hc
  unfold formatPointer at hc
  rw [String.data_append] at hc
  rcases List.mem_append.mp hc with h | h
  · rw [show ("0x" : String).data = ['0', 'x'] from rfl] at h
    simp only [List.mem_cons, List.mem_singleton, List.not_mem_nil, or_false] at h
    rcases h with rfl | rfl <;> decide
  · split at h
    · rw [show ("0" : String).data = ['0'] from rfl] at h
      simp only [List.mem_singleton] at h
      subst h; decide
    · rw [show (String.mk (natToHexAux a a [])).data = natToHexAux a a [] from rfl] at h
      rcases natToHexAux_mem a a [] c h with h2 | ⟨d, hd⟩
      · simp at h2
      · subst hd; exact digitChar_ne_newline d

lemma padLeft_no_newline (s : String) (w : Nat)
    (hs : ∀ c ∈ s.data, c ≠ '\n') :
    ∀ c ∈ (padLeft s w).data, c ≠ '\n' := by
  intro c hc
  unfold padLeft at hc
  rw [String.data_append] at hc
  rcases List.mem_append.mp hc with h | h
  · rw [show (String.mk (List.replicate (w - s.length) ' ')).data =
        List.replicate (w - s.length) ' ' from rfl] at h
    rw [List.eq_of_mem_replicate h]
    decide
  · exact hs c h

lemma frameLineBody_no_newline (i a : Nat) :
    ∀ c ∈ (frameLineBody i a).data, c ≠ '\n' := by
  intro c hc
  unfold frameLineBody at hc
  rw [String.data_append, String.data_append] at hc
  rcases List.mem_append.mp hc with h | h
  · rcases List.mem_append.mp h with h2 | h2
    · exact padLeft_no_newline _ _ (natToDec_no_newline i) c h2
    · rw [show (": " : String).data = [':', ' '] from rfl] at h2
      simp only [List.mem_cons, List.mem_singleton, List.not_mem_nil, or_false] at h2
      rcases h2 with rfl | rfl <;> decide
  · exact formatPointer_no_newline a c h

lemma splitLines_renderFrames (as : List Nat) :
    ∀ (i : Nat) (tail : List Char),
      splitLines ((renderFrames i as).data ++ tail) =
        frameBodies i as ++ splitLines tail := by
  induction as with
  | nil =>
    intro i tail
    have h0 : (renderFrames i []).data = [] := rfl
    simp [h0, frameBodies]
  | cons a rest ih =>
    intro i tail
    have h1 : (renderFrames i (a :: rest)).data ++ tail =
        (frameLineBody i a).data ++
          '\n' :: ((renderFrames (i + 1) rest).data ++ tail) := by
      show (frameLine i a ++ renderFrames (i + 1) rest).data ++ tail = _
      rw [frameLine, String.data_append, String.data_append]
      have hn : ("\n" : String).data = ['\n'] := rfl
      rw [hn]
      simp [List.append_assoc]
    rw [h1, splitLines_append_newline (frameLineBody_no_newline i a), ih]
    simp [frameBodies]

/-!
## Helper characterisations of `try_capture`
-/

lemma recordFrames_of_try_capture_ok {w : UnwindWorld} {bt : Backtrace}
    (h : try_capture w = Except.ok bt) :
    recordFrames w.step_frames = Except.ok bt.frames := by
  rw [try_capture_eq] at h
  split at h
  · cases h
  · split at h
    · cases h
    · split at h
      · cases h
      · rename_i as heq
        cases h
        exact heq

lemma try_capture_ok {w : UnwindWorld} {as : List Nat}
    (hctx : w.context_error = none) (hcur : w.cursor_error = none)
    (h : recordFrames w.step_frames = Except.ok as) :
    try_capture w = Except.ok { frames := as } := by
  rw [try_capture_eq, hctx, hcur, h]

lemma try_capture_context_error {w : UnwindWorld} {e : UnwindError}
    (h : w.context_error = some e) : try_capture w = Except.error e := by
  rw [try_capture_eq, h]

lemma try_capture_cursor_error {w : UnwindWorld} {e : UnwindError}
    (hctx : w.context_error = none) (h : w.cursor_error = some e) :
    try_capture w = Except.error e := by
  rw [try_capture_eq, hctx, h]

lemma try_capture_read_error {w : UnwindWorld} {e : UnwindError}
    (hctx : w.context_error = none) (hcur : w.cursor_error = none)
    (h : recordFrames w.step_frames = Except.error e) :
    try_capture w = Except.error e := by
  rw [try_capture_eq, hctx, hcur, h]

/-!
## The claims
-/

/-- C1 (counterexample): a non-signal frame whose raw instruction pointer
is `0` is recorded as `2 ^ 32 - 1`, which is neither the natural-number
nor the integer value of "raw IP minus one": the claim's unqualified
"raw IP − 1 addressable unit" reading fails at raw IP `0`. -/
theorem C1_raw_minus_one_counterexample :
    is_signal_frame (okFrame 0 false) = false ∧
    get_register (okFrame 0 false) = Except.ok 0 ∧
    zeroIPWorld.step_frames = [okFrame 0 false] ∧
    try_capture zeroIPWorld = Except.ok { frames := [wordSize - 1] } ∧
    wordSize - 1 ≠ 0 - 1 ∧
    ((wordSize - 1 : Nat) : Int) ≠ (0 : Int) - 1 := by
  refine ⟨rfl, rfl, rfl, rfl, ?_, ?_⟩
  · norm_num [wordSize, wordBits]
  · norm_num [wordSize, wordBits]

/-- C1 (amended): for every frame recorded by `try_capture`, if
`is_signal_frame()` is false the recorded address is the raw instruction
pointer decremented with wrap-around modulo `2 ^ 32` — hence exactly raw
IP − 1 whenever the raw IP is at least 1 — and if it is true the recorded
address is the raw instruction-pointer value unmodified. -/
theorem C1_recorded_address (w : UnwindWorld) (addrs : List Nat) (i : Nat)
    (f : StackFrame) (ip : Nat)
    (hcap : try_capture w = Except.ok { frames := addrs })
    (hf : w.step_frames[i]? = some f)
    (hip : get_register f = Except.ok ip) :
    (is_signal_frame f = false →
      addrs[i]? = some (wrapSub1 ip) ∧
      (1 ≤ ip → ip < wordSize → addrs[i]? = some (ip - 1))) ∧
    (is_signal_frame f = true → addrs[i]? = some ip) := by
  have hrec := recordFrames_of_try_capture_ok hcap
  obtain ⟨a, ha, hai⟩ := recordFrames_index hrec i f hf
  rw [recordFrame, hip] at ha
  constructor
  · intro hsig
    have haval : a = wrapSub1 ip := by
      rw [hsig] at ha
      exact (Except.ok.injEq _ _).mp ha.symm
    constructor
    · rw [← haval]; exact hai
    · intro h1 h2
      rw [← wrapSub1_eq_sub_one h1 h2, ← haval]
      exact hai
  · intro hsig
    have haval : a = ip := by
      rw [hsig] at ha
      exact (Except.ok.injEq _ _).mp ha.symm
    rw [← haval]
    exact hai

/-- C1 witness: in `demoWorld` the first stepped-to frame is a non-signal
frame with raw IP `0x1001`; its recorded address is `0x1000`. -/
theorem C1_recorded_address_witness :
    ([0x1000, 0x2000] : List Nat)[0]? = some (wrapSub1 0x1001) ∧
    ([0x1000, 0x2000] : List Nat)[0]? = some (0x1001 - 1) :=
  ⟨((C1_recorded_address demoWorld [0x1000, 0x2000] 0 (okFrame 0x1001 false)
      0x1001 rfl rfl rfl).1 rfl).1,
   ((C1_recorded_address demoWorld [0x1000, 0x2000] 0 (okFrame 0x1001 false)
      0x1001 rfl rfl rfl).1 rfl).2 (by norm_num) (by norm_num [wordSize, wordBits])⟩

/-- C2: `capture` never panics or aborts: for every behaviour of the
external unwinder — including any failure of context creation, cursor
creation or a register read — every execution path completes by returning
a `Backtrace` value (the captured one, or the empty one). -/
theorem C2_capture_never_fails (w : UnwindWorld) :
    ∃ bt : Backtrace, capture w = bt ∧
      (try_capture w = Except.ok bt ∨ bt = { frames := [] }) := by
  unfold capture
  cases h : try_capture w with
  | ok bt => exact ⟨bt, rfl, Or.inl rfl⟩
  | error e => exact ⟨{ frames := [] }, rfl, Or.inr rfl⟩

/-- C3: `capture` returns exactly `try_capture`'s backtrace on success and
the empty backtrace on any `UnwindError`; the error never propagates. -/
theorem C3_capture_swallows_errors (w : UnwindWorld) :
    (∀ bt : Backtrace, try_capture w = Except.ok bt → capture w = bt) ∧
    (∀ e : UnwindError, try_capture w = Except.error e →
      capture w = { frames := [] }) := by
  constructor
  · intro bt h
    unfold capture
    rw [h]
  · intro e h
    unfold capture
    rw [h]

/-- C3 witness: a successful capture is returned unchanged, and a failed
context creation yields the empty backtrace. -/
theorem C3_capture_swallows_errors_witness :
    capture demoWorld = { frames := [0x1000, 0x2000] } ∧
    capture errWorld = { frames := [] } :=
  ⟨(C3_capture_swallows_errors demoWorld).1 { frames := [0x1000, 0x2000] } rfl,
   (C3_capture_swallows_errors errWorld).2 ⟨3⟩ rfl⟩

/-- C4: `try_capture` is fail-fast: a context-creation failure, a
cursor-creation failure, or the first failing per-frame register read each
make `try_capture` return exactly that error; no partially filled
backtrace is returned, the frames collected before the failing read being
discarded with the error. -/
theorem C4_try_capture_fail_fast (w : UnwindWorld) :
    (∀ e : UnwindError, w.context_error = some e →
      try_capture w = Except.error e) ∧
    (∀ e : UnwindError, w.context_error = none → w.cursor_error = some e →
      try_capture w = Except.error e) ∧
    (∀ (pre post : List StackFrame) (f : StackFrame) (e : UnwindError),
      w.context_error = none → w.cursor_error = none →
      w.step_frames = pre ++ f :: post →
      (∀ g ∈ pre, ∃ ip, get_register g = Except.ok ip) →
      get_register f = Except.error e →
      try_capture w = Except.error e) := by
  refine ⟨fun e h => try_capture_context_error h,
    fun e hctx hcur => try_capture_cursor_error hctx hcur, ?_⟩
  intro pre post f e hctx hcur hsplit hpre hf
  refine try_capture_read_error hctx hcur ?_
  rw [hsplit]
  exact recordFrames_append_error hpre hf

/-- C4 witness: with one good frame collected before a failing register
read, `try_capture` returns the read error and no frames. -/
theorem C4_try_capture_fail_fast_witness :
    try_capture readFailWorld = Except.error ⟨7⟩ :=
  (C4_try_capture_fail_fast readFailWorld).2.2 [okFrame 0x1001 false]
    [okFrame 0x2000 true] (badFrame ⟨7⟩) ⟨7⟩ rfl rfl rfl
    (fun g hg => by
      simp only [List.mem_singleton] at hg
      subst hg
      exact ⟨0x1001, rfl⟩)
    rfl

/-- C5: the one leading frame the fresh cursor points at —
`try_capture`'s own activation frame — is discarded without being
recorded: the result never depends on it, and for every `i` the `i`-th
recorded address is the recorded value of the frame reached after `i + 1`
successful steps, innermost first in cursor order. -/
theorem C5_first_frame_discarded (w : UnwindWorld) (addrs : List Nat)
    (hctx : w.context_error = none) (hcur : w.cursor_error = none)
    (hrec : recordFrames w.step_frames = Except.ok addrs) :
    try_capture w = Except.ok { frames := addrs } ∧
    (∀ g : StackFrame,
      try_capture { w with initial_frame := g } =
        Except.ok { frames := addrs }) ∧
    addrs.length = w.step_frames.length ∧
    (∀ (i : Nat) (f : StackFrame), w.step_frames[i]? = some f →
      ∃ a, recordFrame f = Except.ok a ∧ addrs[i]? = some a) := by
  refine ⟨try_capture_ok hctx hcur hrec, ?_, recordFrames_length hrec,
    recordFrames_index hrec⟩
  intro g
  exact try_capture_ok hctx hcur hrec

/-- C5 witness: the captured addresses of `demoWorld` are those of the two
stepped-to frames, and stay the same even when the frame the fresh cursor
initially points at is replaced by an unreadable frame. -/
theorem C5_first_frame_discarded_witness :
    try_capture demoWorld = Except.ok { frames := [0x1000, 0x2000] } ∧
    try_capture { demoWorld with initial_frame := badFrame ⟨9⟩ } =
      Except.ok { frames := [0x1000, 0x2000] } :=
  ⟨(C5_first_frame_discarded demoWorld [0x1000, 0x2000] rfl rfl rfl).1,
   (C5_first_frame_discarded demoWorld [0x1000, 0x2000] rfl rfl rfl).2.1
     (badFrame ⟨9⟩)⟩

/-- C6: the rendered text of a backtrace with N frames is exactly one
header line, then N frame lines in stored order — each beginning with its
zero-based index right-aligned to a minimum width of 3 — then exactly one
trailing advisory note with no line terminator after it; for N = 0 it is
exactly the header and the note; and `[0x1000, 0x2000]` renders as the
header, a line indexed 0 with `0x1000`, a line indexed 1 with `0x2000`,
then the note, in that exact order. -/
theorem C6_render_structure (bt : Backtrace) :
    splitLines (render bt).data =
      ("stack backtrace:" : String).data ::
        (frameBodies 0 bt.frames ++ [noteText.data]) ∧
    render { frames := [] } = "stack backtrace:\n" ++ noteText ∧
    render { frames := [0x1000, 0x2000] } =
      "stack backtrace:\n  0: 0x1000\n  1: 0x2000\n" ++ noteText := by
  refine ⟨?_, rfl, rfl⟩
  have key : (render bt).data =
      ("stack backtrace:" : String).data ++
        '\n' :: ((renderFrames 0 bt.frames).data ++ noteText.data) := by
    unfold render
    rw [String.data_append, String.data_append,
      show ("stack backtrace:\n" : String).data =
        ("stack backtrace:" : String).data ++ ['\n'] from rfl]
    simp [List.append_assoc]
  rw [key, splitLines_append_newline (by decide), splitLines_renderFrames,
    splitLines_of_no_newline (by decide)]

/-- C7: rendering is deterministic: the output text depends only on the
stored frame sequence, so formatting the same frames twice produces
byte-identical text. -/
theorem C7_render_deterministic (bt1 bt2 : Backtrace)
    (h : bt1.frames = bt2.frames) : render bt1 = render bt2 := by
  cases bt1
  cases bt2
  cases h
  rfl

/-- C7 witness: two backtrace values with the same frame sequence render
to the same text. -/
theorem C7_render_deterministic_witness :
    render { frames := [0x1000, 0x2000] } =
      render { frames := [0x1000, 0x2000] } :=
  C7_render_deterministic { frames := [0x1000, 0x2000] }
    { frames := [0x1000, 0x2000] } rfl

/-- C8: `try_capture` always terminates: for every cursor behaviour whose
`step` returns false after finitely many successful steps (every
`UnwindWorld`, as the call stack is finite) with all register reads
succeeding, the loop returns after exactly one recorded frame per
successful step. -/
theorem C8_try_capture_terminates (w : UnwindWorld)
    (hctx : w.context_error = none) (hcur : w.cursor_error = none)
    (hok : ∀ f ∈ w.step_frames, ∃ ip, get_register f = Except.ok ip) :
    ∃ bt : Backtrace, try_capture w = Except.ok bt ∧
      bt.frames.length = w.step_frames.length := by
  obtain ⟨as, has⟩ := recordFrames_ok_of_forall hok
  exact ⟨{ frames := as }, try_capture_ok hctx hcur has,
    recordFrames_length has⟩

/-- C8 witness: the two-step behaviour of `demoWorld` terminates with
exactly two recorded frames. -/
theorem C8_try_capture_terminates_witness :
    ∃ bt : Backtrace, try_capture demoWorld = Except.ok bt ∧
      bt.frames.length = demoWorld.step_frames.length :=
  C8_try_capture_terminates demoWorld rfl rfl
    (fun f hf => by
      have hf2 : f ∈ [okFrame 0x1001 false, okFrame 0x2000 true] := hf
      simp only [List.mem_cons, List.not_mem_nil, or_false] at hf2
      rcases hf2 with rfl | rfl
      · exact ⟨0x1001, rfl⟩
      · exact ⟨0x2000, rfl⟩)

/-- C9: on the target configuration without unwind support (`wasm32`),
`capture` unconditionally returns a backtrace with an empty frame
sequence, independently of any unwinder behaviour. -/
theorem C9_wasm32_capture_empty (w : UnwindWorld) :
    captureOn TargetArch.wasm32 w = { frames := [] } ∧
    (∀ w2 : UnwindWorld,
      captureOn TargetArch.wasm32 w = captureOn TargetArch.wasm32 w2) :=
  ⟨rfl, fun _ => rfl⟩

/-- C10: the non-signal IP adjustment is an unchecked machine subtraction:
at raw IP `0` it wraps around to `2 ^ 32 - 1` (as `try_capture` on
`zeroIPWorld` records), and the recorded address equals raw IP − 1
exactly when the raw IP is at least 1. -/
theorem C10_unchecked_ip_subtraction :
    try_capture zeroIPWorld = Except.ok { frames := [wordSize - 1] } ∧
    adjustIP 0 false = wordSize - 1 ∧
    (∀ ip : Nat, ip < wordSize → (adjustIP ip false = ip - 1 ↔ 1 ≤ ip)) := by
  refine ⟨rfl, rfl, ?_⟩
  intro ip hip
  rw [adjustIP_false]
  constructor
  · intro h
    rcases Nat.eq_zero_or_pos ip with rfl | hpos
    · exfalso
      have hw : wordSize = 4294967296 := by norm_num [wordSize, wordBits]
      rw [show wrapSub1 0 = wordSize - 1 from rfl] at h
      omega
    · exact hpos
  · intro h1
    exact wrapSub1_eq_sub_one h1 hip

/-- C10 witness: at raw IP `5` (below `2 ^ 32`) the adjusted address is
`4`, matching the raw IP − 1 reading, which indeed requires `1 ≤ 5`. -/
theorem C10_unchecked_ip_subtraction_witness :
    adjustIP 5 false = 5 - 1 ↔ 1 ≤ 5 :=
  C10_unchecked_ip_subtraction.2.2 5 (by norm_num [wordSize, wordBits])
